import Mathlib

/-!
Shallow embedding of the context lifecycle and scoping subsystem of the
chakracore-rs wrapper (src/context.rs), together with the engine (JSRT)
state it manipulates through the chakracore-sys FFI, and proofs of the
specified properties.

The engine is an external collaborator; its primitives (JsCreateContext,
JsSetCurrentContext, JsGetCurrentContext, JsSetContextData,
JsGetContextData, JsSetPromiseContinuationCallback,
JsSetObjectBeforeCollectCallback) are modelled by their JSRT contracts as
used by the wrapper: an explicit engine state with a per-thread current
context slot, a set of live context handles, and a per-context data
pointer. Heap allocations handed to the engine as raw pointers are tracked
explicitly so that leak and double-free questions are statable.
-/

namespace ChakraCore

/-- Raw engine references (JsContextRef, JsValueRef, JsRef). The value 0
models the null reference produced by JsContextRef::new and
JsValueRef::new. -/
abbrev JsRef := Nat

/-- Engine status codes; a non-zero JSRT status is surfaced by the jstry
macro as a recoverable EngineError result. -/
inductive JsErrorCode where
  | invalidArgument
  | noCurrentContext
  | engineFault
deriving DecidableEq

/-- A fatal Rust panic: a failed assert macro or a failed Result unwrap. -/
inductive RustPanic where
  | assertFailed
  | unwrapFailed
deriving DecidableEq

/-- Ownership state of a heap allocation (a boxed ContextData) whose raw
pointer has been handed to the engine: still allocated, or reclaimed. -/
inductive BoxState where
  | raw
  | freed
deriving DecidableEq

/-- A deferred task (promise continuation), an opaque callable value.
Invoking a task either succeeds or fails; during a successful invocation
the engine may hand further continuations to the registered promise
callback, which appends them to the queue. Those continuations are the
spawns, listed in the order they are enqueued. -/
inductive JsTask where
  | mk : Nat → Bool → List JsTask → JsTask

/-- Identity of a task, used only to talk about run order. -/
def JsTask.id : JsTask → Nat
  | .mk i _ _ => i

/-- Whether invoking the task succeeds. -/
def JsTask.succeeds : JsTask → Bool
  | .mk _ b _ => b

/-- Tasks the engine enqueues during a successful invocation of this task. -/
def JsTask.spawns : JsTask → List JsTask
  | .mk _ _ s => s

mutual

/-- Size of a task tree, the termination measure of the drain loop. -/
def JsTask.size : JsTask → Nat
  | .mk _ _ sp => 1 + sizeList sp

/-- Total size of a list of task trees. -/
def sizeList : List JsTask → Nat
  | [] => 0
  | t :: ts => JsTask.size t + sizeList ts

end

theorem sizeList_append (s u : List JsTask) :
    sizeList (s ++ u) = sizeList s + sizeList u := by
  induction s with
  | nil => simp [sizeList]
  | cons t ts ih => simp [sizeList, ih]; omega

theorem sizeList_reverse (s : List JsTask) : sizeList s.reverse = sizeList s := by
  induction s with
  | nil => rfl
  | cons t ts ih =>
    simp [sizeList, List.reverse_cons, sizeList_append, ih]
    omega

mutual

/-- Whether every invocation in a task tree succeeds. -/
def JsTask.allOk : JsTask → Bool
  | .mk _ b sp => b && allOkList sp

/-- Whether every invocation in a list of task trees succeeds. -/
def allOkList : List JsTask → Bool
  | [] => true
  | t :: ts => t.allOk && allOkList ts

end

/-- Record of one task invocation performed by execute_tasks: which task was
called, the raw reference of the guard context it was called with, and the
argument list it was given. -/
structure Invocation where
  taskId : Nat
  guardRef : JsRef
  args : List JsRef
deriving DecidableEq

/-- The while-let drain loop of execute_tasks, on the pop-order view of the
queue: the head of this stack is what a Vec pop returns (the most recently
enqueued task), and the spawns of a task are pushed at the back of the queue
during its invocation, hence reversed onto the front of this stack. Each
invocation is performed with the guard context and an empty argument slice;
a failed invocation is the unwrap panic of the source. -/
def drainStack (g : JsRef) : List JsTask → Except RustPanic (List Invocation)
  | [] => .ok []
  | .mk i b sp :: rest =>
    if b then
      match drainStack g (sp.reverse ++ rest) with
      | .ok tr => .ok ({ taskId := i, guardRef := g, args := [] } :: tr)
      | .error p => .error p
    else .error .unwrapFailed
termination_by s => sizeList s
decreasing_by
  simp [sizeList, JsTask.size, sizeList_append, sizeList_reverse]

/-- execute_tasks at the level of one queue value (the promise_queue Vec in
enqueue order): pop from the back until the queue is empty. -/
def executeTasksQueue (g : JsRef) (q : List JsTask) :
    Except RustPanic (List Invocation) :=
  drainStack g q.reverse

/-- The anymap crate as used here: at most one value per type. Types are
modelled by their TypeId (a Nat) and stored values by Nat. -/
def AnyMap := Nat → Option Nat

/-- AnyMap::new. -/
def AnyMap.new : AnyMap := fun _ => none

/-- anymap insert: stores the value under its type, returning the previous
value of that exact type if one existed. -/
def AnyMap.insert (m : AnyMap) (t v : Nat) : Option Nat × AnyMap :=
  (m t, fun u => if u = t then some v else m u)

/-- anymap remove: deletes and returns the value of the given type. -/
def AnyMap.remove (m : AnyMap) (t : Nat) : Option Nat × AnyMap :=
  (m t, fun u => if u = t then none else m u)

/-- anymap get (shared or mutable): reads the value of the given type. -/
def AnyMap.get (m : AnyMap) (t : Nat) : Option Nat := m t

/-- ContextData, the Auxiliary Record attached to every context: the
deferred-task queue (in enqueue order, most recent last) and the typed
user-data map. -/
structure ContextData where
  promise_queue : List JsTask
  user_data : AnyMap

/-- The freshly allocated record built in Context::new. -/
def ContextData.empty : ContextData :=
  { promise_queue := [], user_data := AnyMap.new }

/-- Context::promise_handler, the deferred-task submission callback: the
engine hands over a ready continuation and it is pushed at the back of the
promise queue of the ContextData the callback was registered with. -/
def ContextData.promise_handler (d : ContextData) (task : JsTask) : ContextData :=
  { d with promise_queue := d.promise_queue ++ [task] }

/-- The engine runtime handle; an external collaborator with no modelled
structure of its own. -/
structure Runtime where
  raw : JsRef
deriving DecidableEq

/-- A sandboxed execution context: a cheap-to-copy wrapper of an engine
issued handle, compared by identity. -/
structure Context where
  raw : JsRef
deriving DecidableEq

/-- A guard that keeps a context active while it is in scope. The drop flag
records whether releasing the guard restores the previous context. -/
structure ContextGuard where
  previous : Option Context
  current : Context
  drop : Bool
deriving DecidableEq

/-- The engine-side state manipulated by the wrapper: the set of live
context handles, the fresh-handle counter, the per-thread current-context
slot (0 for none), the context data pointer of each context (0 for null),
which contexts have a before-collect callback registered, the registered
promise continuation callback (recorded as the context that was current at
registration together with the data pointer passed), and the heap of boxed
ContextData records handed to the engine as raw pointers. -/
structure Engine where
  contexts : List JsRef
  nextCtx : JsRef
  current : JsRef
  ctxDataPtr : JsRef → Nat
  beforeCollect : JsRef → Bool
  promiseCallback : Option (JsRef × Nat)
  nextBox : Nat
  boxState : Nat → Option BoxState
  boxVal : Nat → ContextData

/-- Replace the contents of one allocated record. -/
def Engine.setBoxVal (e : Engine) (p : Nat) (d : ContextData) : Engine :=
  { e with boxVal := fun x => if x = p then d else e.boxVal x }

/-- JsSetCurrentContext: accepts the null reference (clearing the slot) or
any live context handle; rejects anything else (invalid or destroyed
handle). On success only the current-context slot changes. -/
def jsSetCurrentContext (e : Engine) (r : JsRef) : Except JsErrorCode Engine :=
  if r = 0 ∨ r ∈ e.contexts then .ok { e with current := r }
  else .error .invalidArgument

/-- Context::get_current (Self::get_current): JsGetCurrentContext cannot
fail and returns null when no context is current, in which case this
returns nothing; otherwise a non-owning guard (drop = false) around the
currently active context. A pure read of engine state. -/
def Context.get_current (e : Engine) : Option ContextGuard :=
  if e.current = 0 then none
  else some { previous := none, current := ⟨e.current⟩, drop := false }

/-- ContextGuard::context: a cheap copy of the associated context. -/
def ContextGuard.context (g : ContextGuard) : Context := g.current

/-- Context::enter: instruct the engine to set this context as current.
On engine rejection the error is returned and the state left unchanged. -/
def Context.enter (c : Context) (e : Engine) : Except JsErrorCode Unit × Engine :=
  match jsSetCurrentContext e c.raw with
  | .ok e1 => (.ok (), e1)
  | .error k => (.error k, e)

/-- Context::exit: instruct the engine to set the current context back to
the given previous context, or to the null reference if there is none. -/
def Context.exit (_c : Context) (previous : Option Context) (e : Engine) :
    Except JsErrorCode Unit × Engine :=
  match previous with
  | some ctx =>
    (match jsSetCurrentContext e ctx.raw with
     | .ok e1 => (.ok (), e1)
     | .error k => (.error k, e))
  | none =>
    (match jsSetCurrentContext e 0 with
     | .ok e1 => (.ok (), e1)
     | .error k => (.error k, e))

/-- Context::make_current: snapshot the context currently active on the
thread (possibly none), then enter this context; on success produce an
owning guard recording the snapshot as previous, this context as current,
and drop = true. On failure the error propagates and no guard exists. -/
def Context.make_current (c : Context) (e : Engine) :
    Except JsErrorCode ContextGuard × Engine :=
  let current := (Context.get_current e).map (fun g => g.current)
  match c.enter e with
  | (.ok _, e1) =>
    (.ok { previous := current, current := c, drop := true }, e1)
  | (.error k, e1) => (.error k, e1)

/-- Drop for ContextGuard: when the guard owns the restore obligation it
exits its context back to the recorded previous one, asserting that the
engine accepted the restore; a rejected restore is a fatal assert panic,
not a recoverable error. A non-owning guard does nothing. -/
def ContextGuard.dropGuard (g : ContextGuard) (e : Engine) :
    Except RustPanic Engine :=
  if g.drop then
    match Context.exit g.current g.previous e with
    | (.ok _, e1) => .ok e1
    | (.error _, _) => .error .assertFailed
  else .ok e

/-- Context::get_data, as a pointer lookup: JsGetContextData is asserted to
succeed and the returned pointer is unwrapped, panicking if it is null. -/
def Context.get_data_ptr (c : Context) (e : Engine) : Except RustPanic Nat :=
  let p := e.ctxDataPtr c.raw
  if p = 0 then .error .unwrapFailed else .ok p

/-- Context::insert_user_data: inserts through the ContextData of this
handle, returning the previous value of that exact type if one existed. -/
def Context.insert_user_data (c : Context) (t v : Nat) (e : Engine) :
    Except RustPanic (Option Nat × Engine) :=
  match c.get_data_ptr e with
  | .error p => .error p
  | .ok p =>
    let d := e.boxVal p
    let r := d.user_data.insert t v
    .ok (r.1, e.setBoxVal p { d with user_data := r.2 })

/-- Context::remove_user_data: removes through the ContextData of this
handle, returning the removed value if one was stored. -/
def Context.remove_user_data (c : Context) (t : Nat) (e : Engine) :
    Except RustPanic (Option Nat × Engine) :=
  match c.get_data_ptr e with
  | .error p => .error p
  | .ok p =>
    let d := e.boxVal p
    let r := d.user_data.remove t
    .ok (r.1, e.setBoxVal p { d with user_data := r.2 })

/-- Context::get_user_data: reads through the ContextData of this handle. -/
def Context.get_user_data (c : Context) (t : Nat) (e : Engine) :
    Except RustPanic (Option Nat) :=
  match c.get_data_ptr e with
  | .error p => .error p
  | .ok p => .ok ((e.boxVal p).user_data.get t)

/-- Context::get_user_data_mut: same lookup as get_user_data; the mutable
borrow it hands out is not itself an engine effect. -/
def Context.get_user_data_mut (c : Context) (t : Nat) (e : Engine) :
    Except RustPanic (Option Nat) :=
  match c.get_data_ptr e with
  | .error p => .error p
  | .ok p => .ok ((e.boxVal p).user_data.get t)

/-- JsSetPromiseContinuationCallback with an injected fault flag for the
engine rejecting the call; it requires an active context and records the
callback registration against the context current at that moment. -/
def jsSetPromiseContinuationCallbackF (fault : Bool) (e : Engine)
    (dataPtr : Nat) : Except JsErrorCode Engine :=
  if fault then .error .engineFault
  else if e.current = 0 then .error .noCurrentContext
  else .ok { e with promiseCallback := some (e.current, dataPtr) }

/-- Context::new. The four fault flags model the engine rejecting, in
order: JsCreateContext, JsSetObjectBeforeCollectCallback,
JsSetContextData (inside set_data) and JsSetPromiseContinuationCallback.
Box::into_raw is evaluated before the JsSetContextData call, so when that
call fails the raw pointer is discarded without reclaiming the
allocation. The make_current Result is bound without being checked; its
guard, when present, is dropped on every exit path of the inner block. -/
def Context.new (_runtime : Runtime) (e : Engine) (f1 f2 f3 f4 : Bool) :
    Except RustPanic (Except JsErrorCode Context × Engine) :=
  -- JsCreateContext(runtime.as_raw(), &mut reference)
  if f1 then .ok (.error .engineFault, e) else
  let reference := e.nextCtx
  let e1 : Engine :=
    { e with contexts := reference :: e.contexts, nextCtx := e.nextCtx + 1,
             ctxDataPtr := fun c => if c = reference then 0 else e.ctxDataPtr c }
  -- JsSetObjectBeforeCollectCallback(reference, null, Some(collect))
  if f2 then .ok (.error .engineFault, e1) else
  let e2 : Engine :=
    { e1 with beforeCollect := fun c => if c = reference then true else e1.beforeCollect c }
  -- Box::new(ContextData { promise_queue: Vec::new(), user_data: AnyMap::new() })
  let b := e2.nextBox
  let e3 : Engine :=
    { e2 with nextBox := e2.nextBox + 1,
              boxState := fun x => if x = b then some BoxState.raw else e2.boxState x,
              boxVal := fun x => if x = b then ContextData.empty else e2.boxVal x }
  -- set_data: Box::into_raw(data), then jstry JsSetContextData
  if f3 then .ok (.error .engineFault, e3) else
  let e4 : Engine :=
    { e3 with ctxDataPtr := fun c => if c = reference then b else e3.ctxDataPtr c }
  let context : Context := ⟨reference⟩
  match context.make_current e4 with
  | (.error _, e5) =>
    -- the Result bound to the guard variable holds no guard to drop here
    (match context.get_data_ptr e5 with
     | .error pa => .error pa
     | .ok p =>
       match jsSetPromiseContinuationCallbackF f4 e5 p with
       | .error k => .ok (.error k, e5)
       | .ok e6 => .ok (.ok context, e6))
  | (.ok guard, e5) =>
    match context.get_data_ptr e5 with
    | .error pa => .error pa
    | .ok p =>
      match jsSetPromiseContinuationCallbackF f4 e5 p with
      | .error k =>
        -- jstry returns early; the guard is dropped while unwinding the block
        (match guard.dropGuard e5 with
         | .error pa => .error pa
         | .ok e6 => .ok (.error k, e6))
      | .ok e6 =>
        match guard.dropGuard e6 with
        | .error pa => .error pa
        | .ok e7 => .ok (.ok context, e7)

/-- Context::collect, the before-collect callback: reconstructs the boxed
ContextData from the stored pointer and frees it. -/
def Context.collect (c : Context) (e : Engine) : Except RustPanic Engine :=
  match c.get_data_ptr e with
  | .error p => .error p
  | .ok p =>
    .ok { e with boxState := fun x => if x = p then some BoxState.freed else e.boxState x }

/-- ContextGuard::execute_tasks: fetch the ContextData of the guard context
and run the while-let pop loop over its promise queue, invoking every
popped task with this guard and no arguments; when the loop finishes the
queue left behind is the empty one it stopped on. -/
def ContextGuard.execute_tasks (g : ContextGuard) (e : Engine) :
    Except RustPanic (List Invocation × Engine) :=
  match g.current.get_data_ptr e with
  | .error p => .error p
  | .ok p =>
    match executeTasksQueue g.current.raw (e.boxVal p).promise_queue with
    | .error pe => .error pe
    | .ok tr => .ok (tr, e.setBoxVal p { e.boxVal p with promise_queue := [] })

/-- An allocated record is leaked when it is still allocated as a raw
pointer but no live context data slot and no callback registration can
reach it any more. -/
def leakedBox (e : Engine) (b : Nat) : Prop :=
  e.boxState b = some BoxState.raw ∧
  (∀ c ∈ e.contexts, e.ctxDataPtr c ≠ b) ∧
  e.promiseCallback.map Prod.snd ≠ some b

instance (e : Engine) (b : Nat) : Decidable (leakedBox e b) := by
  unfold leakedBox; infer_instance

/-- The user-data value of one type stored in the record of one context. -/
def ctxUserData (e : Engine) (c : Context) (t : Nat) : Option Nat :=
  (e.boxVal (e.ctxDataPtr c.raw)).user_data t

/-- Driver for the nesting scenario: make each context in the list current
in order, recording with each produced guard the raw reference that was
current immediately before the corresponding make_current. -/
def makeCurrentSeq (e : Engine) :
    List Context → Except JsErrorCode (Engine × List (JsRef × ContextGuard))
  | [] => .ok (e, [])
  | c :: cs =>
    match c.make_current e with
    | (.error k, _) => .error k
    | (.ok g, e1) =>
      match makeCurrentSeq e1 cs with
      | .error k => .error k
      | .ok (ef, rest) => .ok (ef, (e.current, g) :: rest)

/-- Driver for the release phase: drop the guards in the given order,
recording the current raw reference the engine reports after each drop. -/
def releaseSeq (e : Engine) :
    List ContextGuard → Except RustPanic (Engine × List JsRef)
  | [] => .ok (e, [])
  | g :: gs =>
    match g.dropGuard e with
    | .error p => .error p
    | .ok e1 =>
      match releaseSeq e1 gs with
      | .error p => .error p
      | .ok (ef, tr) => .ok (ef, e1.current :: tr)

theorem allOkList_append (s u : List JsTask) :
    allOkList (s ++ u) = (allOkList s && allOkList u) := by
  induction s with
  | nil => simp [allOkList]
  | cons t ts ih => simp [allOkList, ih, Bool.and_assoc]

theorem allOkList_reverse (s : List JsTask) :
    allOkList s.reverse = allOkList s := by
  induction s with
  | nil => rfl
  | cons t ts ih =>
    simp [allOkList, List.reverse_cons, allOkList_append, ih, Bool.and_comm]

/-- The drain loop distributes over stack concatenation: the front segment
is drained in full (spawns included) before the back segment is touched. -/
theorem drainStack_append (g : JsRef) (s u : List JsTask) :
    drainStack g (s ++ u) =
      (drainStack g s).bind fun a => (drainStack g u).map fun bb => a ++ bb := by
  have H : ∀ n (s : List JsTask), sizeList s ≤ n → ∀ u,
      drainStack g (s ++ u) =
        (drainStack g s).bind fun a => (drainStack g u).map fun bb => a ++ bb := by
    intro n
    induction n with
    | zero =>
      intro s hs u
      match s with
      | [] => cases h : drainStack g u <;> simp [drainStack, Except.bind, Except.map, h]
      | .mk i b sp :: rest => simp [sizeList, JsTask.size] at hs
    | succ n ih =>
      intro s hs u
      match s with
      | [] => cases h : drainStack g u <;> simp [drainStack, Except.bind, Except.map, h]
      | .mk i b sp :: rest =>
        simp only [List.cons_append, drainStack]
        by_cases hb : b
        · have hsz : sizeList (sp.reverse ++ rest) ≤ n := by
            have := hs
            simp only [sizeList, JsTask.size] at this
            simp [sizeList_append, sizeList_reverse]
            omega
          have hrw : sp.reverse ++ (rest ++ u) = (sp.reverse ++ rest) ++ u := by
            simp [List.append_assoc]
          rw [hb] at *
          simp only [if_true]
          rw [hrw, ih (sp.reverse ++ rest) hsz u]
          cases h1 : drainStack g (sp.reverse ++ rest) <;>
            cases h2 : drainStack g u <;>
              simp [Except.bind, Except.map, h1, h2]
        · simp [hb, Except.bind]
  exact H (sizeList s) s le_rfl u

/-- Every invocation the drain performs uses the guard context and an empty
argument list. -/
theorem drainStack_calls (g : JsRef) (s : List JsTask) (tr : List Invocation)
    (h : drainStack g s = .ok tr) :
    ∀ inv ∈ tr, inv.guardRef = g ∧ inv.args = [] := by
  have H : ∀ n (s : List JsTask), sizeList s ≤ n → ∀ tr,
      drainStack g s = .ok tr → ∀ inv ∈ tr, inv.guardRef = g ∧ inv.args = [] := by
    intro n
    induction n with
    | zero =>
      intro s hs tr h inv hm
      match s with
      | [] => simp [drainStack] at h; subst h; simp at hm
      | .mk i b sp :: rest => simp [sizeList, JsTask.size] at hs
    | succ n ih =>
      intro s hs tr h inv hm
      match s with
      | [] => simp [drainStack] at h; subst h; simp at hm
      | .mk i b sp :: rest =>
        simp only [drainStack] at h
        by_cases hb : b
        · rw [hb] at h
          simp only [if_true] at h
          cases h1 : drainStack g (sp.reverse ++ rest) with
          | error p => rw [h1] at h; simp at h
          | ok tr1 =>
            rw [h1] at h
            simp at h
            subst h
            have hsz : sizeList (sp.reverse ++ rest) ≤ n := by
              have := hs
              simp only [sizeList, JsTask.size] at this
              simp [sizeList_append, sizeList_reverse]
              omega
            rcases List.mem_cons.mp hm with h2 | h2
            · subst h2; exact ⟨rfl, rfl⟩
            · exact ih (sp.reverse ++ rest) hsz tr1 h1 inv h2
        · simp [hb] at h
  exact H (sizeList s) s le_rfl tr h

/-- If every task invocation succeeds then the drain returns normally. -/
theorem drainStack_ok_of_allOk (g : JsRef) (s : List JsTask)
    (h : allOkList s = true) : ∃ tr, drainStack g s = .ok tr := by
  have H : ∀ n (s : List JsTask), sizeList s ≤ n → allOkList s = true →
      ∃ tr, drainStack g s = .ok tr := by
    intro n
    induction n with
    | zero =>
      intro s hs h
      match s with
      | [] => exact ⟨[], by simp [drainStack]⟩
      | .mk i b sp :: rest => simp [sizeList, JsTask.size] at hs
    | succ n ih =>
      intro s hs h
      match s with
      | [] => exact ⟨[], by simp [drainStack]⟩
      | .mk i b sp :: rest =>
        simp only [allOkList, JsTask.allOk, Bool.and_eq_true] at h
        obtain ⟨⟨hb, hsp⟩, hrest⟩ := h
        have hsz : sizeList (sp.reverse ++ rest) ≤ n := by
          have := hs
          simp only [sizeList, JsTask.size] at this
          simp [sizeList_append, sizeList_reverse]
          omega
        have hall : allOkList (sp.reverse ++ rest) = true := by
          simp [allOkList_append, allOkList_reverse, hsp, hrest]
        obtain ⟨tr1, h1⟩ := ih (sp.reverse ++ rest) hsz hall
        exact ⟨{ taskId := i, guardRef := g, args := [] } :: tr1,
          by simp [drainStack, hb, h1]⟩
  exact H (sizeList s) s le_rfl h

/-- If some task invocation fails then the drain aborts with the unwrap
panic. -/
theorem drainStack_panic_of_failure (g : JsRef) (s : List JsTask)
    (h : allOkList s = false) :
    drainStack g s = .error RustPanic.unwrapFailed := by
  have H : ∀ n (s : List JsTask), sizeList s ≤ n → allOkList s = false →
      drainStack g s = .error RustPanic.unwrapFailed := by
    intro n
    induction n with
    | zero =>
      intro s hs h
      match s with
      | [] => simp [allOkList] at h
      | .mk i b sp :: rest => simp [sizeList, JsTask.size] at hs
    | succ n ih =>
      intro s hs h
      match s with
      | [] => simp [allOkList] at h
      | .mk i b sp :: rest =>
        by_cases hb : b
        · simp only [allOkList, JsTask.allOk, hb, Bool.true_and,
            Bool.and_eq_false_iff] at h
          have hsz : sizeList (sp.reverse ++ rest) ≤ n := by
            have := hs
            simp only [sizeList, JsTask.size] at this
            simp [sizeList_append, sizeList_reverse]
            omega
          have hall : allOkList (sp.reverse ++ rest) = false := by
            rcases h with h | h <;>
              simp [allOkList_append, allOkList_reverse, h]
          have h1 := ih (sp.reverse ++ rest) hsz hall
          simp [drainStack, hb, h1]
        · simp only [Bool.not_eq_true] at hb
          simp [drainStack, hb]
  exact H (sizeList s) s le_rfl h

/-- Every task present in the stack gets invoked when the drain returns
normally. -/
theorem drainStack_runs_all (g : JsRef) (s : List JsTask)
    (tr : List Invocation) (h : drainStack g s = .ok tr) :
    ∀ t ∈ s, t.id ∈ tr.map Invocation.taskId := by
  have H : ∀ n (s : List JsTask), sizeList s ≤ n → ∀ tr,
      drainStack g s = .ok tr → ∀ t ∈ s, t.id ∈ tr.map Invocation.taskId := by
    intro n
    induction n with
    | zero =>
      intro s hs tr h t hm
      match s with
      | [] => simp at hm
      | .mk i b sp :: rest => simp [sizeList, JsTask.size] at hs
    | succ n ih =>
      intro s hs tr h t hm
      match s with
      | [] => simp at hm
      | .mk i b sp :: rest =>
        simp only [drainStack] at h
        by_cases hb : b
        · rw [hb] at h
          simp only [if_true] at h
          cases h1 : drainStack g (sp.reverse ++ rest) with
          | error p => rw [h1] at h; simp at h
          | ok tr1 =>
            rw [h1] at h
            simp at h
            subst h
            have hsz : sizeList (sp.reverse ++ rest) ≤ n := by
              have := hs
              simp only [sizeList, JsTask.size] at this
              simp [sizeList_append, sizeList_reverse]
              omega
            rcases List.mem_cons.mp hm with h2 | h2
            · subst h2; simp [JsTask.id]
            · have := ih (sp.reverse ++ rest) hsz tr1 h1 t (by simp [h2])
              simp [this]
        · simp [hb] at h
  exact H (sizeList s) s le_rfl tr h

/-- Claim C4: execute_tasks drains the deferred-task queue in
last-in-first-out order — draining a queue that holds T1 then T2 performs
the complete drain of T2 (its spawned tasks included) before the drain of
T1 — each task is invoked with the guard as execution context and no
arguments, a task that enqueues a task T3 during its own invocation causes
T3 to run before execute_tasks returns, and the promise queue is empty when
execute_tasks returns. -/
theorem c4_execute_tasks_order (gr : JsRef) :
    (∀ t1 t2 : JsTask, executeTasksQueue gr [t1, t2] =
        (executeTasksQueue gr [t2]).bind fun a =>
          (executeTasksQueue gr [t1]).map fun bb => a ++ bb)
    ∧ (∀ (i : Nat) (sp : List JsTask) (t3 : JsTask) (tr : List Invocation),
        t3 ∈ sp → executeTasksQueue gr [JsTask.mk i true sp] = .ok tr →
          t3.id ∈ tr.map Invocation.taskId)
    ∧ (∀ (q : List JsTask) (tr : List Invocation),
        executeTasksQueue gr q = .ok tr →
          ∀ inv ∈ tr, inv.guardRef = gr ∧ inv.args = [])
    ∧ (∀ (g : ContextGuard) (e : Engine) (tr : List Invocation) (e1 : Engine),
        g.execute_tasks e = .ok (tr, e1) →
          (e1.boxVal (e.ctxDataPtr g.current.raw)).promise_queue = []
          ∧ executeTasksQueue g.current.raw
              (e.boxVal (e.ctxDataPtr g.current.raw)).promise_queue = .ok tr) := by
  refine ⟨?_, ?_, ?_, ?_⟩
  · intro t1 t2
    have h : ([t1, t2] : List JsTask).reverse = [t2] ++ [t1] := by simp
    simp only [executeTasksQueue, h, drainStack_append]
    simp
  · intro i sp t3 tr h3 htr
    simp only [executeTasksQueue, List.reverse_cons, List.reverse_nil,
      List.nil_append] at htr
    simp only [drainStack, if_true] at htr
    cases h1 : drainStack gr (sp.reverse ++ []) with
    | error p => rw [h1] at htr; simp at htr
    | ok tr1 =>
      rw [h1] at htr
      simp at htr
      subst htr
      have := drainStack_runs_all gr (sp.reverse ++ []) tr1 h1 t3 (by simp [h3])
      simp [this]
  · intro q tr h
    exact drainStack_calls gr q.reverse tr h
  · intro g e tr e1 h
    simp only [ContextGuard.execute_tasks, Context.get_data_ptr] at h
    by_cases hp : e.ctxDataPtr g.current.raw = 0
    · simp [hp] at h
    · simp only [hp, if_false] at h
      cases h2 : executeTasksQueue g.current.raw
          (e.boxVal (e.ctxDataPtr g.current.raw)).promise_queue with
      | error pe => rw [h2] at h; simp at h
      | ok tr2 =>
        rw [h2] at h
        simp at h
        obtain ⟨htr, he⟩ := h
        subst htr
        subst he
        exact ⟨by simp [Engine.setBoxVal], rfl⟩

/-- Witness for C4 at a concrete input: a task with id 2 that spawns a task
with id 3 during its invocation; the spawned task runs before the drain
returns. -/
theorem c4_execute_tasks_order_w :
    ∃ tr, executeTasksQueue 7 [JsTask.mk 2 true [JsTask.mk 3 true []]] = .ok tr ∧
      (3 : Nat) ∈ tr.map Invocation.taskId := by
  have heval : executeTasksQueue 7 [JsTask.mk 2 true [JsTask.mk 3 true []]] =
      .ok [⟨2, 7, []⟩, ⟨3, 7, []⟩] := by
    simp [executeTasksQueue, drainStack]
  exact ⟨_, heval, (c4_execute_tasks_order 7).2.1 2 [JsTask.mk 3 true []]
    (JsTask.mk 3 true []) _ (by simp) heval⟩

/-- Counterexample for C5 as stated: with tasks 10 (succeeding) then 11
(failing) enqueued, the failing invocation of task 11 is not discarded;
execute_tasks panics on the unwrap and does not return normally (task 10 is
never invoked). -/
theorem c5_counterexample :
    executeTasksQueue 1 [JsTask.mk 10 true [], JsTask.mk 11 false []] =
      .error RustPanic.unwrapFailed ∧
    ¬∃ tr, executeTasksQueue 1 [JsTask.mk 10 true [], JsTask.mk 11 false []] =
      .ok tr := by
  have h : executeTasksQueue 1 [JsTask.mk 10 true [], JsTask.mk 11 false []] =
      .error RustPanic.unwrapFailed := by
    simp [executeTasksQueue, drainStack]
  exact ⟨h, by simp [h]⟩

/-- Claim C5 as amended: the result of each task invocation is not
propagated to the caller as a recoverable error, but neither is a failure
discarded — the invocation result is unwrapped, so execute_tasks returns
normally exactly when every drained invocation succeeds, and a failing
invocation aborts it with a fatal panic. -/
theorem c5_task_failure_panics (g : JsRef) (q : List JsTask) :
    (allOkList q = true → ∃ tr, executeTasksQueue g q = .ok tr)
    ∧ (allOkList q = false →
        executeTasksQueue g q = .error RustPanic.unwrapFailed) := by
  constructor
  · intro h
    exact drainStack_ok_of_allOk g q.reverse (by simp [allOkList_reverse, h])
  · intro h
    exact drainStack_panic_of_failure g q.reverse (by simp [allOkList_reverse, h])

/-- Witness for the amended C5 at concrete inputs: an all-succeeding queue
returns normally, a queue with a failing task panics. -/
theorem c5_task_failure_panics_w :
    (∃ tr, executeTasksQueue 1 [JsTask.mk 4 true []] = .ok tr) ∧
    executeTasksQueue 1 [JsTask.mk 5 false []] = .error RustPanic.unwrapFailed := by
  exact ⟨(c5_task_failure_panics 1 [JsTask.mk 4 true []]).1
      (by simp [allOkList, JsTask.allOk]),
    (c5_task_failure_panics 1 [JsTask.mk 5 false []]).2
      (by simp [allOkList, JsTask.allOk])⟩

/-- A small concrete engine used by the witnesses: two live contexts with
handles 1 and 2, no current context, no data attached yet. -/
def engW : Engine :=
  { contexts := [1, 2], nextCtx := 3, current := 0,
    ctxDataPtr := fun _ => 0, beforeCollect := fun _ => false,
    promiseCallback := none, nextBox := 1,
    boxState := fun _ => none, boxVal := fun _ => ContextData.empty }

/-- Claim C1: make_current first snapshots the context currently active on
the thread (none when the slot is empty), then asks the engine to set this
context current; on success it returns a guard recording previous =
snapshot, current = this context and the restore flag set, with the thread
slot now holding this context; when the engine rejects the handle an
EngineError is returned, no guard is produced and the thread state is
unchanged. -/
theorem c1_make_current (e : Engine) (c : Context) :
    ((c.raw = 0 ∨ c.raw ∈ e.contexts) →
      c.make_current e =
        (.ok { previous := if e.current = 0 then none else some ⟨e.current⟩,
               current := c, drop := true },
         { e with current := c.raw }))
    ∧ (¬(c.raw = 0 ∨ c.raw ∈ e.contexts) →
      (c.make_current e).1 = .error JsErrorCode.invalidArgument ∧
      (c.make_current e).2 = e) := by
  constructor
  · intro hv
    simp only [Context.make_current, Context.enter, jsSetCurrentContext,
      Context.get_current, hv, if_true]
    by_cases hcur : e.current = 0 <;> simp [hcur]
  · intro hv
    simp [Context.make_current, Context.enter, jsSetCurrentContext, hv]

/-- Witness for C1 at a concrete input: entering live context 1 in an
engine with an empty current slot. -/
theorem c1_make_current_w :
    Context.make_current ⟨1⟩ engW =
      (.ok { previous := none, current := ⟨1⟩, drop := true },
       { engW with current := 1 }) := by
  have h := (c1_make_current engW ⟨1⟩).1 (Or.inr (by simp [engW]))
  simpa [engW] using h

/-- Claim C2: releasing a guard that owns the restore obligation instructs
the engine to set the current context back to the recorded previous context
when one is present, or to no context when it is absent; a rejected restore
call is a fatal assert panic, not a recoverable error. -/
theorem c2_guard_drop_restore (g : ContextGuard) (e : Engine)
    (hd : g.drop = true) :
    (g.previous = none → g.dropGuard e = .ok { e with current := 0 })
    ∧ (∀ p : Context, g.previous = some p → (p.raw = 0 ∨ p.raw ∈ e.contexts) →
        g.dropGuard e = .ok { e with current := p.raw })
    ∧ (∀ p : Context, g.previous = some p → ¬(p.raw = 0 ∨ p.raw ∈ e.contexts) →
        g.dropGuard e = .error RustPanic.assertFailed) := by
  refine ⟨?_, ?_, ?_⟩
  · intro hp
    simp [ContextGuard.dropGuard, hd, Context.exit, hp, jsSetCurrentContext]
  · intro p hp hv
    simp [ContextGuard.dropGuard, hd, Context.exit, hp, jsSetCurrentContext, hv]
  · intro p hp hv
    simp [ContextGuard.dropGuard, hd, Context.exit, hp, jsSetCurrentContext, hv]

/-- Witness for C2 at a concrete input: a guard over context 1 whose
previous context is the live context 2 restores 2 on release. -/
theorem c2_guard_drop_restore_w :
    ContextGuard.dropGuard ⟨some ⟨2⟩, ⟨1⟩, true⟩ { engW with current := 1 } =
      .ok { engW with current := 2 } := by
  have h := (c2_guard_drop_restore ⟨some ⟨2⟩, ⟨1⟩, true⟩
    { engW with current := 1 } rfl).2.1 ⟨2⟩ rfl (Or.inr (by simp [engW]))
  simpa using h

/-- Claim C9: inspecting the current context returns nothing when no
context is current, and otherwise a non-owning guard (restore flag off) for
the active context; creating the guard, reading its context and releasing
it leaves what the engine reports as current untouched. -/
theorem c9_get_current_inert (e : Engine) :
    (e.current = 0 → Context.get_current e = none)
    ∧ (e.current ≠ 0 →
      ∃ g : ContextGuard, Context.get_current e = some g ∧
        g.current.raw = e.current ∧ g.drop = false ∧ g.previous = none ∧
        g.context = g.current ∧ g.dropGuard e = .ok e) := by
  constructor
  · intro h
    simp [Context.get_current, h]
  · intro h
    refine ⟨{ previous := none, current := ⟨e.current⟩, drop := false },
      by simp [Context.get_current, h], rfl, rfl, rfl, rfl, ?_⟩
    simp [ContextGuard.dropGuard]

/-- Witness for C9 at a concrete input: inspecting an engine whose current
context is 1. -/
theorem c9_get_current_inert_w :
    ∃ g : ContextGuard,
      Context.get_current { engW with current := 1 } = some g ∧
      g.current.raw = 1 ∧ g.drop = false ∧ g.previous = none ∧
      g.context = g.current ∧
      g.dropGuard { engW with current := 1 } = .ok { engW with current := 1 } :=
  (c9_get_current_inert { engW with current := 1 }).2 (by simp [engW])

/-- Evaluation of insert_user_data when the data pointer is non-null. -/
theorem insert_user_data_eq (c : Context) (t v : Nat) (e : Engine)
    (hp : e.ctxDataPtr c.raw ≠ 0) :
    c.insert_user_data t v e =
      .ok ((e.boxVal (e.ctxDataPtr c.raw)).user_data t,
        e.setBoxVal (e.ctxDataPtr c.raw)
          { e.boxVal (e.ctxDataPtr c.raw) with
            user_data := fun w => if w = t then some v
              else (e.boxVal (e.ctxDataPtr c.raw)).user_data w }) := by
  simp [Context.insert_user_data, Context.get_data_ptr, hp, AnyMap.insert]

/-- Evaluation of remove_user_data when the data pointer is non-null. -/
theorem remove_user_data_eq (c : Context) (t : Nat) (e : Engine)
    (hp : e.ctxDataPtr c.raw ≠ 0) :
    c.remove_user_data t e =
      .ok ((e.boxVal (e.ctxDataPtr c.raw)).user_data t,
        e.setBoxVal (e.ctxDataPtr c.raw)
          { e.boxVal (e.ctxDataPtr c.raw) with
            user_data := fun w => if w = t then none
              else (e.boxVal (e.ctxDataPtr c.raw)).user_data w }) := by
  simp [Context.remove_user_data, Context.get_data_ptr, hp, AnyMap.remove]

/-- Claim C8: inserting a user-data value of a type that already holds one
returns the old value and leaves exactly the new value stored; removing a
type that holds nothing returns nothing and leaves the map unchanged; and
operations on one type never touch the slot of a distinct type. -/
theorem c8_user_data_semantics (e : Engine) (c : Context) (t u v : Nat)
    (hp : e.ctxDataPtr c.raw ≠ 0) (hu : u ≠ t) :
    (∀ old : Nat, ctxUserData e c t = some old →
      ∃ e1, c.insert_user_data t v e = .ok (some old, e1) ∧
        ctxUserData e1 c t = some v ∧
        ctxUserData e1 c u = ctxUserData e c u)
    ∧ (ctxUserData e c t = none →
      ∃ e1, c.remove_user_data t e = .ok (none, e1) ∧
        ∀ w, ctxUserData e1 c w = ctxUserData e c w)
    ∧ (∀ r e1, c.insert_user_data t v e = .ok (r, e1) →
        ctxUserData e1 c u = ctxUserData e c u)
    ∧ (∀ r e1, c.remove_user_data t e = .ok (r, e1) →
        ctxUserData e1 c u = ctxUserData e c u) := by
  refine ⟨?_, ?_, ?_, ?_⟩
  · intro old hold
    refine ⟨e.setBoxVal (e.ctxDataPtr c.raw)
        { e.boxVal (e.ctxDataPtr c.raw) with
          user_data := fun w => if w = t then some v
            else (e.boxVal (e.ctxDataPtr c.raw)).user_data w }, ?_, ?_, ?_⟩
    · rw [insert_user_data_eq c t v e hp]
      rw [show (e.boxVal (e.ctxDataPtr c.raw)).user_data t = some old from hold]
    · simp [ctxUserData, Engine.setBoxVal]
    · simp [ctxUserData, Engine.setBoxVal, hu]
  · intro hnone
    refine ⟨e.setBoxVal (e.ctxDataPtr c.raw)
        { e.boxVal (e.ctxDataPtr c.raw) with
          user_data := fun w => if w = t then none
            else (e.boxVal (e.ctxDataPtr c.raw)).user_data w }, ?_, ?_⟩
    · rw [remove_user_data_eq c t e hp]
      rw [show (e.boxVal (e.ctxDataPtr c.raw)).user_data t = none from hnone]
    · intro w
      by_cases hw : w = t
      · subst hw
        simp [ctxUserData, Engine.setBoxVal]
        exact hnone.symm
      · simp [ctxUserData, Engine.setBoxVal, hw]
  · intro r e1 h
    rw [insert_user_data_eq c t v e hp] at h
    simp only [Except.ok.injEq, Prod.mk.injEq] at h
    obtain ⟨-, he⟩ := h
    rw [← he]
    simp [ctxUserData, Engine.setBoxVal, hu]
  · intro r e1 h
    rw [remove_user_data_eq c t e hp] at h
    simp only [Except.ok.injEq, Prod.mk.injEq] at h
    obtain ⟨-, he⟩ := h
    rw [← he]
    simp [ctxUserData, Engine.setBoxVal, hu]

/-- Claim C10: the user-data accessors operate directly on the record of
the given handle, regardless of which context (if any) is current on the
thread, and none of them changes the current context, the set of live
contexts, the data pointers, or the record of any other handle. -/
theorem c10_user_data_frame (e : Engine) (c : Context) (t v : Nat)
    (hp : e.ctxDataPtr c.raw ≠ 0) :
    (∃ r e1, c.insert_user_data t v e = .ok (r, e1) ∧
      e1.current = e.current ∧ e1.contexts = e.contexts ∧
      e1.ctxDataPtr = e.ctxDataPtr ∧
      ∀ b2, b2 ≠ e.ctxDataPtr c.raw → e1.boxVal b2 = e.boxVal b2)
    ∧ (∃ r e1, c.remove_user_data t e = .ok (r, e1) ∧
      e1.current = e.current ∧ e1.contexts = e.contexts ∧
      e1.ctxDataPtr = e.ctxDataPtr ∧
      ∀ b2, b2 ≠ e.ctxDataPtr c.raw → e1.boxVal b2 = e.boxVal b2)
    ∧ c.get_user_data t e = .ok (ctxUserData e c t)
    ∧ c.get_user_data_mut t e = .ok (ctxUserData e c t) := by
  refine ⟨?_, ?_, ?_, ?_⟩
  · refine ⟨(e.boxVal (e.ctxDataPtr c.raw)).user_data t,
      e.setBoxVal (e.ctxDataPtr c.raw)
        { e.boxVal (e.ctxDataPtr c.raw) with
          user_data := fun w => if w = t then some v
            else (e.boxVal (e.ctxDataPtr c.raw)).user_data w },
      insert_user_data_eq c t v e hp, rfl, rfl, rfl, ?_⟩
    intro b2 hb2
    simp [Engine.setBoxVal, hb2]
  · refine ⟨(e.boxVal (e.ctxDataPtr c.raw)).user_data t,
      e.setBoxVal (e.ctxDataPtr c.raw)
        { e.boxVal (e.ctxDataPtr c.raw) with
          user_data := fun w => if w = t then none
            else (e.boxVal (e.ctxDataPtr c.raw)).user_data w },
      remove_user_data_eq c t e hp, rfl, rfl, rfl, ?_⟩
    intro b2 hb2
    simp [Engine.setBoxVal, hb2]
  · simp [Context.get_user_data, Context.get_data_ptr, hp, AnyMap.get, ctxUserData]
  · simp [Context.get_user_data_mut, Context.get_data_ptr, hp, AnyMap.get, ctxUserData]

/-- A concrete engine with one live context (handle 1) whose record (box 1)
stores the user-data value 5 under type 0. -/
def engD : Engine :=
  { contexts := [1], nextCtx := 2, current := 0,
    ctxDataPtr := fun c => if c = 1 then 1 else 0,
    beforeCollect := fun _ => false, promiseCallback := none, nextBox := 2,
    boxState := fun b => if b = 1 then some BoxState.raw else none,
    boxVal := fun b => if b = 1 then
        { promise_queue := [],
          user_data := fun t => if t = 0 then some 5 else none }
      else ContextData.empty }

/-- Witness for C8 at a concrete input: type 0 holds 5; inserting 9 returns
5 and leaves 9 stored, with type 1 untouched. -/
theorem c8_user_data_semantics_w :
    ∃ e1, Context.insert_user_data ⟨1⟩ 0 9 engD = .ok (some 5, e1) ∧
      ctxUserData e1 ⟨1⟩ 0 = some 9 ∧
      ctxUserData e1 ⟨1⟩ 1 = ctxUserData engD ⟨1⟩ 1 :=
  (c8_user_data_semantics engD ⟨1⟩ 0 1 9 (by simp [engD]) (by decide)).1 5
    (by simp [engD, ctxUserData])

/-- Witness for C10 at a concrete input: context 1 is not the current
context (context 2 holds the slot), yet insertion succeeds and leaves the
current slot, context list and every other record unchanged. -/
theorem c10_user_data_frame_w :
    ∃ r e1, Context.insert_user_data ⟨1⟩ 0 9 { engD with current := 2 } =
        .ok (r, e1) ∧
      e1.current = 2 ∧ e1.contexts = [1] ∧
      e1.ctxDataPtr = ({ engD with current := 2 } : Engine).ctxDataPtr ∧
      ∀ b2, b2 ≠ 1 →
        e1.boxVal b2 = ({ engD with current := 2 } : Engine).boxVal b2 :=
  (c10_user_data_frame { engD with current := 2 } ⟨1⟩ 0 9 (by simp [engD])).1

/-- Evaluation of make_current on an accepted handle. -/
theorem make_current_eval (e : Engine) (c : Context)
    (hc : c.raw = 0 ∨ c.raw ∈ e.contexts) :
    c.make_current e =
      (.ok { previous := if e.current = 0 then none else some ⟨e.current⟩,
             current := c, drop := true },
       { e with current := c.raw }) := by
  simp only [Context.make_current, Context.enter, jsSetCurrentContext,
    Context.get_current, hc, if_true]
  by_cases h0 : e.current = 0 <;> simp [h0]

/-- Releasing a guard obtained from a successful make_current restores the
engine to exactly the state it had before the make_current. -/
theorem make_current_roundtrip (e : Engine) (c : Context)
    (hw : e.current = 0 ∨ e.current ∈ e.contexts)
    (hc : c.raw = 0 ∨ c.raw ∈ e.contexts) :
    ∀ g e1, c.make_current e = (.ok g, e1) → g.dropGuard e1 = .ok e := by
  intro g e1 h
  rw [make_current_eval e c hc] at h
  simp only [Prod.mk.injEq, Except.ok.injEq] at h
  obtain ⟨hg, he1⟩ := h
  subst hg
  subst he1
  obtain ⟨cs, nc, cur, dp, bc, pc, nb, bs, bv⟩ := e
  simp only at hw ⊢
  by_cases h0 : cur = 0
  · subst h0
    simp [ContextGuard.dropGuard, Context.exit, jsSetCurrentContext]
  · have hcur : cur ∈ cs := by
      rcases hw with h | h
      · exact absurd h h0
      · exact h
    simp [ContextGuard.dropGuard, Context.exit, jsSetCurrentContext, h0, hcur]

/-- releaseSeq splits over concatenation of guard lists. -/
theorem releaseSeq_append (e : Engine) (xs ys : List ContextGuard) :
    releaseSeq e (xs ++ ys) =
      match releaseSeq e xs with
      | .error p => .error p
      | .ok (e1, tr1) =>
        match releaseSeq e1 ys with
        | .error p => .error p
        | .ok (e2, tr2) => .ok (e2, tr1 ++ tr2) := by
  induction xs generalizing e with
  | nil =>
    simp only [List.nil_append, releaseSeq]
    cases h : releaseSeq e ys with
    | error p => rfl
    | ok r => obtain ⟨e2, tr2⟩ := r; simp
  | cons g gs ih =>
    simp only [List.cons_append, releaseSeq]
    cases h1 : g.dropGuard e with
    | error p => rfl
    | ok e1 =>
      simp only [List.append_eq]
      rw [ih e1]
      cases h2 : releaseSeq e1 gs with
      | error p => rfl
      | ok r1 =>
        obtain ⟨e2, tr1⟩ := r1
        cases h3 : releaseSeq e2 ys with
        | error p => simp [h3]
        | ok r2 =>
          obtain ⟨e3, tr2⟩ := r2
          simp [h3]

/-- The nesting induction behind C3: with a wellformed current slot and
every context in the list live, pushing them all and then releasing the
guards in exact reverse order returns to the initial engine, and the
current reference observed after each release is the reference recorded
immediately before the matching make_current, in reverse order. -/
theorem stack_discipline (cs1 : List Context) : ∀ e : Engine,
    (e.current = 0 ∨ e.current ∈ e.contexts) →
    (∀ c ∈ cs1, c.raw ∈ e.contexts) →
    ∃ ef pairs, makeCurrentSeq e cs1 = .ok (ef, pairs) ∧
      releaseSeq ef (pairs.map Prod.snd).reverse =
        .ok (e, (pairs.map Prod.fst).reverse) := by
  induction cs1 with
  | nil =>
    intro e hw hv
    exact ⟨e, [], rfl, rfl⟩
  | cons c cs ih =>
    intro e hw hv
    have hc : c.raw = 0 ∨ c.raw ∈ e.contexts := Or.inr (hv c (by simp))
    have hmc := make_current_eval e c hc
    have hw1 : ({ e with current := c.raw } : Engine).current = 0 ∨
        ({ e with current := c.raw } : Engine).current ∈
          ({ e with current := c.raw } : Engine).contexts :=
      Or.inr (by simpa using hv c (by simp))
    have hv1 : ∀ x ∈ cs, x.raw ∈ ({ e with current := c.raw } : Engine).contexts :=
      fun x hx => by simpa using hv x (by simp [hx])
    obtain ⟨ef, pairs, hseq, hrel⟩ := ih { e with current := c.raw } hw1 hv1
    have hdrop : ContextGuard.dropGuard
        { previous := if e.current = 0 then none else some ⟨e.current⟩,
          current := c, drop := true } { e with current := c.raw } = .ok e :=
      make_current_roundtrip e c hw hc _ _ hmc
    refine ⟨ef,
      (e.current, { previous := if e.current = 0 then none else some ⟨e.current⟩,
                    current := c, drop := true }) :: pairs, ?_, ?_⟩
    · simp only [makeCurrentSeq, hmc, hseq]
    · simp only [List.map_cons, List.reverse_cons]
      rw [releaseSeq_append, hrel]
      simp only [releaseSeq, hdrop]

/-- Claim C3: starting from a thread with no current context, making a
sequence of contexts current in nested order and releasing the guards in
exact reverse order reports, after each release, exactly the reference that
was current immediately before the corresponding make_current, ends in the
initial engine state, and after the outermost release no context is
current. -/
theorem c3_stack_nesting (e : Engine) (cs1 : List Context)
    (h0 : e.current = 0) (hv : ∀ c ∈ cs1, c.raw ∈ e.contexts) :
    ∃ ef pairs, makeCurrentSeq e cs1 = .ok (ef, pairs) ∧
      releaseSeq ef (pairs.map Prod.snd).reverse =
        .ok (e, (pairs.map Prod.fst).reverse) ∧
      e.current = 0 := by
  obtain ⟨ef, pairs, h1, h2⟩ := stack_discipline cs1 e (Or.inl h0) hv
  exact ⟨ef, pairs, h1, h2, h0⟩

/-- Witness for C3 at a concrete input: nesting the two live contexts of
the concrete engine and unwinding them. -/
theorem c3_stack_nesting_w :
    ∃ ef pairs, makeCurrentSeq engW [⟨1⟩, ⟨2⟩] = .ok (ef, pairs) ∧
      releaseSeq ef (pairs.map Prod.snd).reverse =
        .ok (engW, (pairs.map Prod.fst).reverse) ∧
      engW.current = 0 :=
  c3_stack_nesting engW [⟨1⟩, ⟨2⟩] rfl (by simp [engW])

/-- Claim C6: create allocates a new context against the runtime, registers
the pre-destruction callback for it, attaches a freshly allocated record
with an empty task queue and an empty user-data map, and registers the
deferred-task submission callback while the new context is transiently
current; the thread current-context slot is restored before create
returns. -/
theorem c6_create (rt : Runtime) (e : Engine)
    (hw : e.current = 0 ∨ e.current ∈ e.contexts)
    (hb : e.nextBox ≠ 0) (hc : e.nextCtx ≠ 0) :
    ∃ e7, Context.new rt e false false false false =
        .ok (.ok ⟨e.nextCtx⟩, e7) ∧
      e7.current = e.current ∧
      e7.contexts = e.nextCtx :: e.contexts ∧
      e7.beforeCollect e.nextCtx = true ∧
      e7.ctxDataPtr e.nextCtx = e.nextBox ∧
      e7.boxVal e.nextBox = ContextData.empty ∧
      e7.boxState e.nextBox = some BoxState.raw ∧
      e7.promiseCallback = some (e.nextCtx, e.nextBox) := by
  by_cases hcur : e.current = 0
  · refine ⟨Engine.mk (e.nextCtx :: e.contexts) (e.nextCtx + 1) e.current
      (fun c => if c = e.nextCtx then e.nextBox
        else if c = e.nextCtx then 0 else e.ctxDataPtr c)
      (fun c => if c = e.nextCtx then true else e.beforeCollect c)
      (some (e.nextCtx, e.nextBox)) (e.nextBox + 1)
      (fun x => if x = e.nextBox then some BoxState.raw else e.boxState x)
      (fun x => if x = e.nextBox then ContextData.empty else e.boxVal x),
      ?_, by simp [hcur], rfl, by simp, by simp, by simp, by simp, rfl⟩
    simp [Context.new, Context.make_current, Context.enter, jsSetCurrentContext,
      Context.get_current, Context.get_data_ptr, jsSetPromiseContinuationCallbackF,
      ContextGuard.dropGuard, Context.exit, hb, hc, hcur]
  · have hmem : e.current ∈ e.nextCtx :: e.contexts :=
      List.mem_cons_of_mem _ (hw.resolve_left hcur)
    refine ⟨Engine.mk (e.nextCtx :: e.contexts) (e.nextCtx + 1) e.current
      (fun c => if c = e.nextCtx then e.nextBox
        else if c = e.nextCtx then 0 else e.ctxDataPtr c)
      (fun c => if c = e.nextCtx then true else e.beforeCollect c)
      (some (e.nextCtx, e.nextBox)) (e.nextBox + 1)
      (fun x => if x = e.nextBox then some BoxState.raw else e.boxState x)
      (fun x => if x = e.nextBox then ContextData.empty else e.boxVal x),
      ?_, rfl, rfl, by simp, by simp, by simp, by simp, rfl⟩
    simp [Context.new, Context.make_current, Context.enter, jsSetCurrentContext,
      Context.get_current, Context.get_data_ptr, jsSetPromiseContinuationCallbackF,
      ContextGuard.dropGuard, Context.exit, hb, hc, hcur, hmem]

/-- Witness for C6 at the concrete engine: a fresh context with handle 3
and record box 1 is created and the empty current slot is restored. -/
theorem c6_create_w :
    ∃ e7, Context.new ⟨0⟩ engW false false false false =
        .ok (.ok ⟨3⟩, e7) ∧
      e7.current = 0 ∧
      e7.contexts = [3, 1, 2] ∧
      e7.beforeCollect 3 = true ∧
      e7.ctxDataPtr 3 = 1 ∧
      e7.boxVal 1 = ContextData.empty ∧
      e7.boxState 1 = some BoxState.raw ∧
      e7.promiseCallback = some (3, 1) :=
  c6_create ⟨0⟩ engW (Or.inl rfl) (by decide) (by decide)

/-- Claim C7 evaluated at the failing input: when attaching the record fails
(JsSetContextData rejected) after the record has been allocated, create
does return an EngineError and nothing is double freed (the record is still
in the allocated-raw state and was never freed), but contrary to the claim
the record is leaked: its pointer was produced before the failed call and
is reachable from no context slot and no callback registration. The thread
current slot is unchanged on this path. -/
theorem c7_create_attach_failure_leak :
    ∃ e3, Context.new ⟨0⟩ engW false false true false =
        .ok (.error JsErrorCode.engineFault, e3) ∧
      e3.boxState 1 = some BoxState.raw ∧
      leakedBox e3 1 ∧
      e3.current = engW.current := by
  refine ⟨Engine.mk (3 :: engW.contexts) 4 0
    (fun c => if c = 3 then 0 else engW.ctxDataPtr c)
    (fun c => if c = 3 then true else engW.beforeCollect c)
    none 2
    (fun x => if x = 1 then some BoxState.raw else engW.boxState x)
    (fun x => if x = 1 then ContextData.empty else engW.boxVal x),
    ?_, by simp, ?_, rfl⟩
  · simp [Context.new, engW]
  · refine ⟨by simp, ?_, by simp⟩
    intro c hcmem
    by_cases h : c = 3 <;> simp [engW, h]

end ChakraCore
